import Mathlib

/-!
Verification of `separate_rgb_channels.py`: a shallow embedding of its
classification, warning, grayscale-rejection and channel-splitting logic,
together with theorems settling the specification's claims.

The embedding follows the source line by line:
* `infer_bit_depth`, `has_alpha`, `alpha_status` embed the classification
  block (lines 43-77 of the source);
* `bit_depth_warning`, `alpha_warning` embed the two warning conditions
  (lines 86-98);
* `process_and_separate_image` embeds the whole per-image routine as a
  trace of observable events (directory creation, prints, warnings, file
  writes) paired with an outcome (separated, or the grayscale error);
* `process_folder` embeds the driver loop (lines 139-182).

Machine integers are modelled as `Nat` with explicit `% 2 ^ 16` where the
source casts to `np.uint16`.  File-system side effects are modelled as an
explicit event trace, and `applyFS` interprets a trace against a simple
file-system state (set of directories, set of files).
-/

set_option autoImplicit false

namespace SepRGB

/-! ### String helpers mirroring the Python primitives used by the source -/

/-- Boolean prefix test on character lists (`list.startswith` building block). -/
def isPre : List Char → List Char → Bool
  | [], _ => true
  | _ :: _, [] => false
  | a :: as, b :: bs => a == b && isPre as bs

/-- Python's `needle in hay` substring test, on character lists. -/
def listContains (hay needle : List Char) : Bool :=
  (List.range (hay.length + 1)).any fun i => isPre needle (hay.drop i)

/-- Python's `sub in s` substring containment on strings. -/
def strContains (s sub : String) : Bool :=
  listContains s.data sub.data

/-- Python's `s.startswith(p)`. -/
def str_startswith (s p : String) : Bool :=
  isPre p.data s.data

/-- Python's `s.upper()` (ASCII case mapping suffices for mode strings). -/
def upperStr (s : String) : String :=
  ⟨s.data.map Char.toUpper⟩

/-- Python's `s.lower()`. -/
def lowerStr (s : String) : String :=
  ⟨s.data.map Char.toLower⟩

/-- Index of the last '.' in the list, if any (scanned left to right,
keeping the latest hit), as used by `os.path.splitext`. -/
def lastDotIdx (cs : List Char) : Option Nat :=
  (List.range cs.length).foldl
    (fun acc i => if cs.getD i ' ' == '.' then some i else acc) none

/-- True when every character strictly before index `k` is a dot;
`os.path.splitext` refuses to split a name whose leading characters are
all dots (e.g. `.bashrc`). -/
def leadingDots (cs : List Char) (k : Nat) : Bool :=
  (cs.take k).all (· == '.')

/-- Root part of `os.path.splitext`: the name without its extension. -/
def splitext_root (s : String) : String :=
  match lastDotIdx s.data with
  | none => s
  | some k => if leadingDots s.data k then s else ⟨s.data.take k⟩

/-- Extension part of `os.path.splitext` (dot included, possibly empty). -/
def splitext_ext (s : String) : String :=
  match lastDotIdx s.data with
  | none => ""
  | some k => if leadingDots s.data k then "" else ⟨s.data.drop k⟩

/-- Final path component, as `os.path.basename` on POSIX paths: the
characters after the last '/'. -/
def basename (p : String) : String :=
  ⟨p.data.foldl (fun acc c => if c = '/' then [] else acc ++ [c]) []⟩

/-! ### Data model -/

/-- A decoded image: its PIL mode string and its bands.  `planes` lists the
bands in PIL's `img.split()` order (so the alpha band, when present, is
last), each band flattened row-major into a list of samples. -/
structure Img where
  mode : String
  planes : List (List Nat)
deriving DecidableEq, Repr

/-- Inferred bit depth: an integer number of bits, or the float32 marker
the source stores as the string "float32". -/
inductive BitDepth where
  | bits : Nat → BitDepth
  | float32 : BitDepth
deriving DecidableEq, Repr

/-- Observable events of one `process_and_separate_image` call, in
program order: `os.makedirs` on the output folder, the informational
print block, the two optional warnings, and each file write (with the
exact path, the written samples and their bit depth). -/
inductive Event where
  | mkdirOut : String → Event
  | infoPrinted : String → String → Event
  | warnBitDepthLoss : Event
  | warnAlphaDiscard : Event
  | fileWritten : String → List Nat → BitDepth → Event
deriving DecidableEq, Repr

/-- Outcome of one call: normal return, or the `ValueError` raised for
grayscale input, carrying the file name and the mode as the message does. -/
inductive Outcome where
  | separated : Outcome
  | grayscaleError : String → String → Outcome
deriving DecidableEq, Repr

/-! ### Classification (source lines 43-77) -/

/-- Bit-depth inference of source lines 44-58: `";16" in mode`, then
`";32" in mode`, then `mode.startswith("I")`, then `mode.startswith("F")`,
else 8. -/
def infer_bit_depth (mode : String) : BitDepth :=
  if strContains mode ";16" then .bits 16
  else if strContains mode ";32" then .bits 32
  else if str_startswith mode "I" then .bits 32
  else if str_startswith mode "F" then .float32
  else .bits 8

/-- Alpha detection of source line 61: `"A" in mode.upper()`. -/
def has_alpha (mode : String) : Bool :=
  strContains (upperStr mode) "A"

/-- The four alpha statuses the source distinguishes (it stores them as
strings; only the "in use" one feeds back into control flow). -/
inductive AlphaStatus where
  | noAlpha : AlphaStatus
  | fullyTransparent : AlphaStatus
  | fullyOpaque : AlphaStatus
  | varying : AlphaStatus
deriving DecidableEq, Repr

/-- The alpha band, `img.split()[-1]` (last band). -/
def alphaPlane (img : Img) : List Nat :=
  img.planes.getLastD []

/-- Minimum sample of a band (`arr.min()`; the band must be nonempty for
the numpy call not to raise, so theorems about it assume nonemptiness). -/
def listMin (l : List Nat) : Nat :=
  l.foldl min (l.headD 0)

/-- Maximum sample of a band (`arr.max()`). -/
def listMax (l : List Nat) : Nat :=
  l.foldl max (l.headD 0)

/-- Alpha-status classification of source lines 62-77: scanned only when
`has_alpha`; all-equal-to-zero is fully transparent, all-equal-nonzero is
fully opaque, otherwise varying. -/
def alpha_status (img : Img) : AlphaStatus :=
  if has_alpha img.mode then
    if listMin (alphaPlane img) == listMax (alphaPlane img) then
      if listMin (alphaPlane img) == 0 then .fullyTransparent
      else .fullyOpaque
    else .varying
  else .noAlpha

/-! ### Warnings (source lines 86-98) -/

/-- Condition of source lines 90-91: bit depth 16, 32 or float32 and the
mode does not start with "RGB". -/
def bit_depth_warning (mode : String) : Bool :=
  (infer_bit_depth mode == .bits 16 || infer_bit_depth mode == .bits 32
    || infer_bit_depth mode == .float32)
  && !(str_startswith mode "RGB")

/-- Condition of source line 96: alpha present and its status string says
"in use", i.e. the status is varying. -/
def alpha_warning (img : Img) : Bool :=
  has_alpha img.mode && (alpha_status img == .varying)

/-! ### The per-image routine (source lines 6-136) -/

/-- The exact list the source tests with `mode in [...]` at line 103. -/
def grayscaleModes : List String := ["L", "LA", "I", "I;16", "F"]

/-- Events emitted before the grayscale check: directory creation, the
info print block, then the two optional warnings, bit-depth one first. -/
def preEvents (img : Img) (image_path output_folder : String) : List Event :=
  [Event.mkdirOut output_folder,
   Event.infoPrinted (basename image_path) img.mode]
  ++ (if bit_depth_warning img.mode then [Event.warnBitDepthLoss] else [])
  ++ (if alpha_warning img then [Event.warnAlphaDiscard] else [])

/-- Channel `c` of the 16-bit path, source lines 111-114:
`np.array(img, dtype=np.uint16)[..., c]`; the uint16 cast is `% 2 ^ 16`. -/
def extractChannel16 (img : Img) (c : Nat) : List Nat :=
  (img.planes.getD c []).map (fun v => v % 2 ^ 16)

/-- Models the library call `img.convert("RGB")` followed by `.split()`
(source lines 127-128): three 8-bit bands.  PIL's per-mode numeric
conversion is library code outside this repository; it is modelled as
taking the first three bands (replicating a single band) reduced to
8 bits.  No claim depends on these sample values, only on the artifact
structure built from them. -/
def convertRGB (img : Img) : List Nat × List Nat × List Nat :=
  match img.planes with
  | [] => ([], [], [])
  | [g] => (g.map (· % 2 ^ 8), g.map (· % 2 ^ 8), g.map (· % 2 ^ 8))
  | [g0, g1] => (g0.map (· % 2 ^ 8), g1.map (· % 2 ^ 8), g1.map (· % 2 ^ 8))
  | g0 :: g1 :: g2 :: _ =>
      (g0.map (· % 2 ^ 8), g1.map (· % 2 ^ 8), g2.map (· % 2 ^ 8))

/-- The three file writes of the splitting step, source lines 109-134:
the lossless 16-bit path when the mode is exactly "RGB;16", else the
convert-to-8-bit path; always R, G, B in that order. -/
def splitEvents (img : Img) (image_path output_folder : String) : List Event :=
  let base_name := splitext_root (basename image_path)
  if img.mode == "RGB;16" then
    [Event.fileWritten (output_folder ++ "/" ++ base_name ++ "_R_16bit.png")
       (extractChannel16 img 0) (.bits 16),
     Event.fileWritten (output_folder ++ "/" ++ base_name ++ "_G_16bit.png")
       (extractChannel16 img 1) (.bits 16),
     Event.fileWritten (output_folder ++ "/" ++ base_name ++ "_B_16bit.png")
       (extractChannel16 img 2) (.bits 16)]
  else
    [Event.fileWritten (output_folder ++ "/" ++ base_name ++ "_R.png")
       (convertRGB img).1 (.bits 8),
     Event.fileWritten (output_folder ++ "/" ++ base_name ++ "_G.png")
       (convertRGB img).2.1 (.bits 8),
     Event.fileWritten (output_folder ++ "/" ++ base_name ++ "_B.png")
       (convertRGB img).2.2 (.bits 8)]

/-- The per-image routine: event trace plus outcome.  Mirrors the source
order exactly: makedirs, open/classify, print, warnings, grayscale check
(raising with file name and mode), then the split. -/
def process_and_separate_image (img : Img) (image_path output_folder : String) :
    List Event × Outcome :=
  if img.mode ∈ grayscaleModes then
    (preEvents img image_path output_folder,
     .grayscaleError (basename image_path) img.mode)
  else
    (preEvents img image_path output_folder
       ++ splitEvents img image_path output_folder,
     .separated)

/-- True exactly on file-write events. -/
def isFileWrite : Event → Bool
  | .fileWritten _ _ _ => true
  | _ => false

/-! ### File-system interpretation of a trace -/

/-- A file-system state: the existing directories and files. -/
structure FS where
  dirs : List String
  files : List String
deriving DecidableEq, Repr

/-- Effect of one event on the file system.  `os.makedirs(..., exist_ok=True)`
adds the directory only when absent (and never fails when it exists);
a file write adds the path; prints and warnings touch nothing. -/
def applyEvent (fs : FS) : Event → FS
  | .mkdirOut d => { fs with dirs := if d ∈ fs.dirs then fs.dirs else fs.dirs ++ [d] }
  | .fileWritten p _ _ =>
      { fs with files := if p ∈ fs.files then fs.files else fs.files ++ [p] }
  | _ => fs

/-- Effect of a whole trace on the file system. -/
def applyFS (fs : FS) (evs : List Event) : FS :=
  evs.foldl applyEvent fs

/-! ### The folder driver (source lines 139-182) -/

/-- Result of `Image.open` inside the per-image call: a decode failure
(`UnidentifiedImageError` / `OSError`) or a decoded image. -/
inductive DecodeOutcome where
  | failure : DecodeOutcome
  | ok : Img → DecodeOutcome
deriving DecidableEq, Repr

/-- One candidate directory entry, with the environment behaviour the
driver can observe: whether `shutil.copy2` raises, and what decoding the
file yields. -/
structure FileEntry where
  name : String
  copyFails : Bool
  decode : DecodeOutcome
deriving DecidableEq, Repr

/-- Observable events of the driver loop, in program order. -/
inductive FolderEvent where
  | madeSubfolder : String → FolderEvent
  | copiedOriginal : String → FolderEvent
  | copyError : String → FolderEvent
  | attempt : String → FolderEvent
  | core : Event → FolderEvent
  | errorPrint : String → FolderEvent
deriving DecidableEq, Repr

/-- The extension set of source line 147. -/
def valid_extensions : List String := [".jpg", ".jpeg", ".png", ".tif", ".tiff"]

/-- Extension filter of source lines 150-151. -/
def validExt (fname : String) : Bool :=
  lowerStr (splitext_ext fname) ∈ valid_extensions

/-- Per-file output subfolder, source line 159: `{base_name}_{ext[1:]}`
under the input folder. -/
def subfolderOf (folder fname : String) : String :=
  folder ++ "/" ++ splitext_root fname ++ "_"
    ++ (⟨(lowerStr (splitext_ext fname)).data.drop 1⟩ : String)

/-- The driver's body for one directory entry, source lines 150-182:
skip invalid extensions; make the subfolder; copy the original (printing
and continuing on a copy error); then attempt the per-image routine once,
catching the grayscale `ValueError` and decode errors with a printed
diagnostic.  A decode failure still performs the routine's initial
`makedirs` (the open happens after it). -/
def process_file (folder : String) (f : FileEntry) : List FolderEvent :=
  if validExt f.name then
    let out := subfolderOf folder f.name
    FolderEvent.madeSubfolder out ::
      (if f.copyFails then [FolderEvent.copyError f.name]
       else
         FolderEvent.copiedOriginal (out ++ "/" ++ f.name) ::
         FolderEvent.attempt f.name ::
         (match f.decode with
          | .failure => [FolderEvent.core (Event.mkdirOut out), FolderEvent.errorPrint f.name]
          | .ok img =>
              let r := process_and_separate_image img (folder ++ "/" ++ f.name) out
              r.1.map FolderEvent.core
                ++ (match r.2 with
                    | .separated => []
                    | .grayscaleError _ _ => [FolderEvent.errorPrint f.name])))
  else []

/-- The driver loop over the directory listing. -/
def process_folder (folder : String) (files : List FileEntry) : List FolderEvent :=
  (files.map (process_file folder)).flatten

/-- True exactly on the driver's printed one-line diagnostics. -/
def isErrorPrint : FolderEvent → Bool
  | .copyError _ => true
  | .errorPrint _ => true
  | _ => false

/-- Whether an entry's processing fails (copy error, decode failure, or
grayscale rejection). -/
def entryFails (f : FileEntry) : Bool :=
  f.copyFails ||
    (match f.decode with
     | .failure => true
     | .ok img => img.mode ∈ grayscaleModes)

/-- Count of attempts on a named file in a driver trace. -/
def attemptCount (tr : List FolderEvent) (fname : String) : Nat :=
  tr.count (FolderEvent.attempt fname)

/-! ### Concrete inputs used as witnesses and counterexamples -/

/-- A plain 8-bit grayscale image, one pixel. -/
def imgL : Img := ⟨"L", [[0]]⟩

/-- An 8-bit RGB image with no alpha, one pixel. -/
def imgRGB8 : Img := ⟨"RGB", [[1], [2], [3]]⟩

/-- A 16-bit-per-channel RGBA image whose alpha plane varies (samples 0
and 7). -/
def rgba16Varying : Img := ⟨"RGBA;16", [[0, 0], [0, 0], [0, 0], [0, 7]]⟩

/-- A 16-bit grayscale-with-alpha image whose alpha plane varies; both
warning conditions hold for it. -/
def la16Varying : Img := ⟨"LA;16", [[0, 1], [0, 7]]⟩

/-- A 16-bit CMYK image (no alpha): the bit-depth-loss condition holds. -/
def cmyk16 : Img := ⟨"CMYK;16", [[0], [0], [0], [0]]⟩

/-- A 16-bit RGB image (no alpha), two pixels per band. -/
def rgb16Img : Img := ⟨"RGB;16", [[1, 2], [3, 4], [5, 6]]⟩

/-! ### Helper lemmas -/

theorem mapMod_eq_self (l : List Nat) (h : ∀ v ∈ l, v < 2 ^ 16) :
    l.map (fun v => v % 2 ^ 16) = l := by
  induction l with
  | nil => rfl
  | cons a t ih =>
      simp only [List.map_cons]
      rw [Nat.mod_eq_of_lt (h a (List.mem_cons_self a t)),
        ih fun v hv => h v (List.mem_cons_of_mem _ hv)]

theorem extractChannel16_eq (img : Img) (c : Nat)
    (hv : ∀ pl ∈ img.planes, ∀ v ∈ pl, v < 2 ^ 16) :
    extractChannel16 img c = img.planes.getD c [] := by
  unfold extractChannel16
  by_cases hc : c < img.planes.length
  · have hg : img.planes.getD c [] = img.planes[c] := by
      rw [List.getD_eq_getElem?_getD, List.getElem?_eq_getElem hc]
      rfl
    rw [hg]
    exact mapMod_eq_self _ (hv _ (List.getElem_mem hc))
  · have hg : img.planes.getD c [] = [] := by
      rw [List.getD_eq_getElem?_getD, List.getElem?_eq_none (Nat.le_of_not_lt hc)]
      rfl
    rw [hg]
    rfl

theorem listContains_singleton (hay : List Char) (c : Char) :
    listContains hay [c] = true ↔ c ∈ hay := by
  unfold listContains
  rw [List.any_eq_true]
  constructor
  · rintro ⟨i, _, hp⟩
    cases hd : hay.drop i with
    | nil => rw [hd] at hp; simp [isPre] at hp
    | cons b t =>
        rw [hd] at hp
        simp only [isPre, Bool.and_eq_true, beq_iff_eq] at hp
        have hmem : c ∈ hay.drop i := by rw [hd, hp.1]; exact List.mem_cons_self b t
        exact List.drop_subset i hay hmem
  · intro hc
    obtain ⟨i, hi, hget⟩ := List.mem_iff_getElem.mp hc
    refine ⟨i, List.mem_range.mpr (Nat.lt_succ_of_lt hi), ?_⟩
    have hd : hay.drop i = c :: hay.drop (i + 1) := by
      rw [← hget]
      exact (List.getElem_cons_drop hay i hi).symm
    rw [hd]
    simp [isPre]

theorem process_gray_eq (img : Img) (p o : String) (h : img.mode ∈ grayscaleModes) :
    process_and_separate_image img p o =
      (preEvents img p o, Outcome.grayscaleError (basename p) img.mode) := by
  simp [process_and_separate_image, h]

theorem process_split_eq (img : Img) (p o : String) (h : img.mode ∉ grayscaleModes) :
    process_and_separate_image img p o =
      (preEvents img p o ++ splitEvents img p o, Outcome.separated) := by
  simp [process_and_separate_image, h]

theorem preEvents_not_write (img : Img) (p o : String) :
    ∀ e ∈ preEvents img p o, isFileWrite e = false := by
  intro e he
  have hcases : e = Event.mkdirOut o ∨ e = Event.infoPrinted (basename p) img.mode
      ∨ e = Event.warnBitDepthLoss ∨ e = Event.warnAlphaDiscard := by
    unfold preEvents at he
    by_cases hb : bit_depth_warning img.mode <;>
      by_cases ha : alpha_warning img <;> simp [hb, ha] at he <;> tauto
  rcases hcases with rfl | rfl | rfl | rfl <;> rfl

theorem splitEvents_write (img : Img) (p o : String) :
    ∀ e ∈ splitEvents img p o, isFileWrite e = true := by
  intro e he
  unfold splitEvents at he
  by_cases h : img.mode == "RGB;16" <;> simp [h] at he <;>
    rcases he with rfl | rfl | rfl <;> rfl

theorem warnBD_not_mem_split (img : Img) (p o : String) :
    Event.warnBitDepthLoss ∉ splitEvents img p o := by
  intro h
  have := splitEvents_write img p o _ h
  simp [isFileWrite] at this

theorem warnAlpha_not_mem_split (img : Img) (p o : String) :
    Event.warnAlphaDiscard ∉ splitEvents img p o := by
  intro h
  have := splitEvents_write img p o _ h
  simp [isFileWrite] at this

theorem warnBD_mem_pre (img : Img) (p o : String) :
    Event.warnBitDepthLoss ∈ preEvents img p o ↔ bit_depth_warning img.mode = true := by
  unfold preEvents
  by_cases hb : bit_depth_warning img.mode <;>
    by_cases ha : alpha_warning img <;> simp [hb, ha]

theorem warnAlpha_mem_pre (img : Img) (p o : String) :
    Event.warnAlphaDiscard ∈ preEvents img p o ↔ alpha_warning img = true := by
  unfold preEvents
  by_cases hb : bit_depth_warning img.mode <;>
    by_cases ha : alpha_warning img <;> simp [hb, ha]

theorem warnBD_mem_process (img : Img) (p o : String) :
    Event.warnBitDepthLoss ∈ (process_and_separate_image img p o).1 ↔
      bit_depth_warning img.mode = true := by
  by_cases hg : img.mode ∈ grayscaleModes
  · rw [process_gray_eq img p o hg]
    exact warnBD_mem_pre img p o
  · rw [process_split_eq img p o hg]
    simp only [List.mem_append]
    rw [warnBD_mem_pre img p o]
    have := warnBD_not_mem_split img p o
    tauto

theorem warnAlpha_mem_process (img : Img) (p o : String) :
    Event.warnAlphaDiscard ∈ (process_and_separate_image img p o).1 ↔
      alpha_warning img = true := by
  by_cases hg : img.mode ∈ grayscaleModes
  · rw [process_gray_eq img p o hg]
    exact warnAlpha_mem_pre img p o
  · rw [process_split_eq img p o hg]
    simp only [List.mem_append]
    rw [warnAlpha_mem_pre img p o]
    have := warnAlpha_not_mem_split img p o
    tauto

/-! ### Claim theorems -/

/-- C1: for every decoded image whose mode is in the grayscale family
(L, LA, I, I;16, F), `process_and_separate_image` fails with the
grayscale error carrying the file name and the mode, writes zero channel
artifacts, and the rejection happens strictly after classification and
warning emission (the trace ends with the info print and the warnings)
and strictly before any channel-splitting attempt (no write events). -/
theorem grayscale_family_rejected (img : Img) (p o : String)
    (h : img.mode ∈ grayscaleModes) :
    process_and_separate_image img p o =
      ([Event.mkdirOut o, Event.infoPrinted (basename p) img.mode]
         ++ (if bit_depth_warning img.mode then [Event.warnBitDepthLoss] else [])
         ++ (if alpha_warning img then [Event.warnAlphaDiscard] else []),
       Outcome.grayscaleError (basename p) img.mode)
    ∧ ∀ e ∈ (process_and_separate_image img p o).1, isFileWrite e = false := by
  refine ⟨process_gray_eq img p o h, ?_⟩
  intro e he
  rw [process_gray_eq img p o h] at he
  exact preEvents_not_write img p o e he

/-- Witness for C1: the grayscale image `imgL` is rejected with the file
name and mode in the error, and its trace holds no file write. -/
theorem grayscale_family_rejected_witness :
    process_and_separate_image imgL "a/img.png" "a/img_png" =
      ([Event.mkdirOut "a/img_png", Event.infoPrinted "img.png" "L"],
       Outcome.grayscaleError "img.png" "L")
    ∧ ∀ e ∈ (process_and_separate_image imgL "a/img.png" "a/img_png").1,
        isFileWrite e = false := by
  have h := grayscale_family_rejected imgL "a/img.png" "a/img_png" (by decide)
  exact ⟨h.1.trans (by decide), h.2⟩

/-- C2: a mode-"RGB;16" image takes the lossless path: the buffer is read
as three planes of unsigned 16-bit samples and each plane is written as a
single-channel 16-bit image named `{base}_R_16bit.png` / `_G_` / `_B_`,
with every written sample exactly equal to the corresponding source plane
value. -/
theorem rgb16_lossless_split (img : Img) (p o : String)
    (hm : img.mode = "RGB;16")
    (hv : ∀ pl ∈ img.planes, ∀ v ∈ pl, v < 2 ^ 16) :
    process_and_separate_image img p o =
      (preEvents img p o ++
        [Event.fileWritten (o ++ "/" ++ splitext_root (basename p) ++ "_R_16bit.png")
           (img.planes.getD 0 []) (BitDepth.bits 16),
         Event.fileWritten (o ++ "/" ++ splitext_root (basename p) ++ "_G_16bit.png")
           (img.planes.getD 1 []) (BitDepth.bits 16),
         Event.fileWritten (o ++ "/" ++ splitext_root (basename p) ++ "_B_16bit.png")
           (img.planes.getD 2 []) (BitDepth.bits 16)],
       Outcome.separated) := by
  have hg : img.mode ∉ grayscaleModes := by rw [hm]; decide
  rw [process_split_eq img p o hg]
  unfold splitEvents
  rw [extractChannel16_eq img 0 hv, extractChannel16_eq img 1 hv,
    extractChannel16_eq img 2 hv, hm]
  rfl

/-- Witness for C2: the two-pixel 16-bit RGB image `rgb16Img` produces
exactly the three `_16bit.png` artifacts with its plane samples verbatim. -/
theorem rgb16_lossless_split_witness :
    process_and_separate_image rgb16Img "f/img.tif" "f/img_tif" =
      ([Event.mkdirOut "f/img_tif", Event.infoPrinted "img.tif" "RGB;16",
        Event.fileWritten "f/img_tif/img_R_16bit.png" [1, 2] (BitDepth.bits 16),
        Event.fileWritten "f/img_tif/img_G_16bit.png" [3, 4] (BitDepth.bits 16),
        Event.fileWritten "f/img_tif/img_B_16bit.png" [5, 6] (BitDepth.bits 16)],
       Outcome.separated) :=
  (rgb16_lossless_split rgb16Img "f/img.tif" "f/img_tif" (by decide)
    (by decide)).trans (by decide)

/-- C3: every non-grayscale image whose mode is not exactly "RGB;16" is
converted to 8-bit RGB and split into exactly three 8-bit single-channel
artifacts named `{base}_R.png`, `{base}_G.png`, `{base}_B.png`, emitted
in the order red, green, blue; no alpha artifact exists (the write events
are exactly those three). -/
theorem general_8bit_split (img : Img) (p o : String)
    (hg : img.mode ∉ grayscaleModes) (h16 : img.mode ≠ "RGB;16") :
    process_and_separate_image img p o =
      (preEvents img p o ++
        [Event.fileWritten (o ++ "/" ++ splitext_root (basename p) ++ "_R.png")
           (convertRGB img).1 (BitDepth.bits 8),
         Event.fileWritten (o ++ "/" ++ splitext_root (basename p) ++ "_G.png")
           (convertRGB img).2.1 (BitDepth.bits 8),
         Event.fileWritten (o ++ "/" ++ splitext_root (basename p) ++ "_B.png")
           (convertRGB img).2.2 (BitDepth.bits 8)],
       Outcome.separated)
    ∧ (process_and_separate_image img p o).1.filter isFileWrite =
        [Event.fileWritten (o ++ "/" ++ splitext_root (basename p) ++ "_R.png")
           (convertRGB img).1 (BitDepth.bits 8),
         Event.fileWritten (o ++ "/" ++ splitext_root (basename p) ++ "_G.png")
           (convertRGB img).2.1 (BitDepth.bits 8),
         Event.fileWritten (o ++ "/" ++ splitext_root (basename p) ++ "_B.png")
           (convertRGB img).2.2 (BitDepth.bits 8)] := by
  have hsplit : splitEvents img p o =
      [Event.fileWritten (o ++ "/" ++ splitext_root (basename p) ++ "_R.png")
         (convertRGB img).1 (BitDepth.bits 8),
       Event.fileWritten (o ++ "/" ++ splitext_root (basename p) ++ "_G.png")
         (convertRGB img).2.1 (BitDepth.bits 8),
       Event.fileWritten (o ++ "/" ++ splitext_root (basename p) ++ "_B.png")
         (convertRGB img).2.2 (BitDepth.bits 8)] := by
    unfold splitEvents
    rw [if_neg (by simpa using h16)]
  have heq := process_split_eq img p o hg
  refine ⟨by rw [heq, hsplit], ?_⟩
  rw [heq, List.filter_append]
  have hpre : (preEvents img p o).filter isFileWrite = [] :=
    List.filter_eq_nil_iff.mpr fun e he => by
      simp [preEvents_not_write img p o e he]
  rw [hpre, hsplit]
  rfl

/-- Witness for C3: an 8-bit RGBA image with varying alpha is flattened
to RGB and split into exactly `x_R.png`, `x_G.png`, `x_B.png`; the alpha
band yields no artifact. -/
theorem general_8bit_split_witness :
    process_and_separate_image ⟨"RGBA", [[1, 2], [3, 4], [5, 6], [0, 9]]⟩
        "d/x.png" "d/x_png" =
      ([Event.mkdirOut "d/x_png", Event.infoPrinted "x.png" "RGBA",
        Event.warnAlphaDiscard,
        Event.fileWritten "d/x_png/x_R.png" [1, 2] (BitDepth.bits 8),
        Event.fileWritten "d/x_png/x_G.png" [3, 4] (BitDepth.bits 8),
        Event.fileWritten "d/x_png/x_B.png" [5, 6] (BitDepth.bits 8)],
       Outcome.separated) :=
  ((general_8bit_split ⟨"RGBA", [[1, 2], [3, 4], [5, 6], [0, 9]]⟩
      "d/x.png" "d/x_png" (by decide) (by decide)).1).trans (by decide)

/-- C4 counterexample: `rgba16Varying` is a 16-bit RGBA image (inferred
bit depth 16) with varying alpha, yet the bit-depth-loss warning does NOT
fire — only the alpha-discard warning does — because the source suppresses
the warning for every mode starting with "RGB", and "RGBA;16" does. -/
theorem rgba16_both_warnings_refuted :
    infer_bit_depth rgba16Varying.mode = BitDepth.bits 16
    ∧ has_alpha rgba16Varying.mode = true
    ∧ alpha_status rgba16Varying = AlphaStatus.varying
    ∧ Event.warnBitDepthLoss ∉
        (process_and_separate_image rgba16Varying "x.png" "o").1
    ∧ Event.warnAlphaDiscard ∈
        (process_and_separate_image rgba16Varying "x.png" "o").1 := by
  decide

/-- C4 amended: the bit-depth-loss warning is emitted iff the inferred
bit depth is 16, 32 or float32 AND the mode does not start with "RGB";
consequently for a 16-bit RGBA image (mode "RGBA;16") with varying alpha
only the alpha-discard warning fires, and for an 8-bit RGB image with no
alpha neither warning fires. -/
theorem bit_depth_warning_rule_amended (img : Img) (p o : String) :
    (Event.warnBitDepthLoss ∈ (process_and_separate_image img p o).1 ↔
      ((infer_bit_depth img.mode = BitDepth.bits 16
          ∨ infer_bit_depth img.mode = BitDepth.bits 32
          ∨ infer_bit_depth img.mode = BitDepth.float32)
        ∧ str_startswith img.mode "RGB" = false))
    ∧ Event.warnBitDepthLoss ∉
        (process_and_separate_image rgba16Varying "x.png" "o").1
    ∧ Event.warnAlphaDiscard ∈
        (process_and_separate_image rgba16Varying "x.png" "o").1
    ∧ Event.warnBitDepthLoss ∉ (process_and_separate_image imgRGB8 "y.png" "o").1
    ∧ Event.warnAlphaDiscard ∉ (process_and_separate_image imgRGB8 "y.png" "o").1 := by
  refine ⟨?_, by decide, by decide, by decide, by decide⟩
  rw [warnBD_mem_process]
  simp only [bit_depth_warning, Bool.and_eq_true, Bool.or_eq_true, beq_iff_eq,
    Bool.not_eq_true']
  tauto

/-- Witness for the amended C4: the 16-bit CMYK image `cmyk16` (bit depth
16, mode not starting with "RGB") does receive the bit-depth-loss warning. -/
theorem bit_depth_warning_rule_amended_witness :
    Event.warnBitDepthLoss ∈ (process_and_separate_image cmyk16 "x.tif" "o").1 :=
  (bit_depth_warning_rule_amended cmyk16 "x.tif" "o").1.mpr (by decide)

/-- C5: the alpha-discard warning is emitted iff the image has alpha and
its alpha state is varying; and whenever both warnings appear, the
bit-depth-loss warning precedes the alpha-discard warning in the trace. -/
theorem alpha_warning_iff_and_order (img : Img) (p o : String) :
    (Event.warnAlphaDiscard ∈ (process_and_separate_image img p o).1 ↔
      (has_alpha img.mode = true ∧ alpha_status img = AlphaStatus.varying))
    ∧ (Event.warnBitDepthLoss ∈ (process_and_separate_image img p o).1 →
       Event.warnAlphaDiscard ∈ (process_and_separate_image img p o).1 →
       ∃ l1 l2 l3, (process_and_separate_image img p o).1
         = l1 ++ Event.warnBitDepthLoss :: (l2 ++ Event.warnAlphaDiscard :: l3)) := by
  constructor
  · rw [warnAlpha_mem_process]
    simp [alpha_warning, Bool.and_eq_true, beq_iff_eq]
  · intro hbd ha
    have hb' : bit_depth_warning img.mode = true := (warnBD_mem_process img p o).mp hbd
    have ha' : alpha_warning img = true := (warnAlpha_mem_process img p o).mp ha
    by_cases hg : img.mode ∈ grayscaleModes
    · refine ⟨[Event.mkdirOut o, Event.infoPrinted (basename p) img.mode], [], [], ?_⟩
      rw [process_gray_eq img p o hg]
      unfold preEvents
      simp [hb', ha']
    · refine ⟨[Event.mkdirOut o, Event.infoPrinted (basename p) img.mode], [],
        splitEvents img p o, ?_⟩
      rw [process_split_eq img p o hg]
      unfold preEvents
      simp [hb', ha']

/-- Witness for C5: on `la16Varying` both warnings hold and the trace
splits around the bit-depth warning first, the alpha warning second. -/
theorem alpha_warning_iff_and_order_witness :
    ∃ l1 l2 l3, (process_and_separate_image la16Varying "x.png" "o").1
      = l1 ++ Event.warnBitDepthLoss :: (l2 ++ Event.warnAlphaDiscard :: l3) :=
  (alpha_warning_iff_and_order la16Varying "x.png" "o").2 (by decide) (by decide)

/-- C6: bit-depth inference follows the priority order of the source: an
explicit ";16" marker gives 16; else ";32" gives 32; else a mode starting
with "I" gives 32; else a mode starting with "F" gives float32; else 8.
In particular RGB, RGBA, CMYK and L infer 8, and I;16 infers 16. -/
theorem bit_depth_priority (mode : String) :
    (strContains mode ";16" = true → infer_bit_depth mode = BitDepth.bits 16)
    ∧ (strContains mode ";16" = false → strContains mode ";32" = true →
        infer_bit_depth mode = BitDepth.bits 32)
    ∧ (strContains mode ";16" = false → strContains mode ";32" = false →
        str_startswith mode "I" = true → infer_bit_depth mode = BitDepth.bits 32)
    ∧ (strContains mode ";16" = false → strContains mode ";32" = false →
        str_startswith mode "I" = false → str_startswith mode "F" = true →
        infer_bit_depth mode = BitDepth.float32)
    ∧ (strContains mode ";16" = false → strContains mode ";32" = false →
        str_startswith mode "I" = false → str_startswith mode "F" = false →
        infer_bit_depth mode = BitDepth.bits 8)
    ∧ infer_bit_depth "RGB" = BitDepth.bits 8
    ∧ infer_bit_depth "RGBA" = BitDepth.bits 8
    ∧ infer_bit_depth "CMYK" = BitDepth.bits 8
    ∧ infer_bit_depth "L" = BitDepth.bits 8
    ∧ infer_bit_depth "I;16" = BitDepth.bits 16 :=
  ⟨fun h1 => by simp [infer_bit_depth, h1],
   fun h1 h2 => by simp [infer_bit_depth, h1, h2],
   fun h1 h2 h3 => by simp [infer_bit_depth, h1, h2, h3],
   fun h1 h2 h3 h4 => by simp [infer_bit_depth, h1, h2, h3, h4],
   fun h1 h2 h3 h4 => by simp [infer_bit_depth, h1, h2, h3, h4],
   by decide, by decide, by decide, by decide, by decide⟩

/-- Witness for C6: one concrete mode through each branch of the priority
order. -/
theorem bit_depth_priority_witness :
    infer_bit_depth "RGB;16" = BitDepth.bits 16
    ∧ infer_bit_depth "CMYK;32" = BitDepth.bits 32
    ∧ infer_bit_depth "I" = BitDepth.bits 32
    ∧ infer_bit_depth "F" = BitDepth.float32
    ∧ infer_bit_depth "CMYK" = BitDepth.bits 8 :=
  ⟨(bit_depth_priority "RGB;16").1 (by decide),
   (bit_depth_priority "CMYK;32").2.1 (by decide) (by decide),
   (bit_depth_priority "I").2.2.1 (by decide) (by decide) (by decide),
   (bit_depth_priority "F").2.2.2.1 (by decide) (by decide) (by decide) (by decide),
   (bit_depth_priority "CMYK").2.2.2.2.1 (by decide) (by decide) (by decide)
     (by decide)⟩

/-- C7: alpha is detected iff some character of the mode equals 'A' after
uppercasing (case-insensitive alpha tag); RGBA and LA have alpha, while
RGB, L, CMYK, I, I;16 and F do not. -/
theorem alpha_detection (mode : String) :
    (has_alpha mode = true ↔ ∃ c ∈ mode.data, Char.toUpper c = 'A')
    ∧ has_alpha "RGBA" = true ∧ has_alpha "LA" = true
    ∧ has_alpha "RGB" = false ∧ has_alpha "L" = false ∧ has_alpha "CMYK" = false
    ∧ has_alpha "I" = false ∧ has_alpha "I;16" = false ∧ has_alpha "F" = false := by
  refine ⟨?_, by decide, by decide, by decide, by decide, by decide, by decide,
    by decide, by decide⟩
  unfold has_alpha strContains
  have hdata : (upperStr mode).data = mode.data.map Char.toUpper := rfl
  rw [hdata, show ("A" : String).data = ['A'] from rfl, listContains_singleton]
  simp [List.mem_map]

/-- Witness for C7: the mode "RGBA" contains the alpha tag, so detection
returns true. -/
theorem alpha_detection_witness : has_alpha "RGBA" = true :=
  (alpha_detection "RGBA").1.mpr ⟨'A', by decide, by decide⟩

/-- C8: with alpha present (and a nonempty alpha plane, as the numpy scan
requires), min = max = 0 classifies as fully transparent, min = max ≠ 0 as
fully opaque, min ≠ max as varying; and without alpha no scan happens —
the status is "no alpha" whatever the pixel data. -/
theorem alpha_state_classification (img : Img) :
    (has_alpha img.mode = false → ∀ planes2 : List (List Nat),
        alpha_status ⟨img.mode, planes2⟩ = AlphaStatus.noAlpha)
    ∧ (has_alpha img.mode = true → alphaPlane img ≠ [] →
        (listMin (alphaPlane img) = listMax (alphaPlane img) →
            listMin (alphaPlane img) = 0 →
            alpha_status img = AlphaStatus.fullyTransparent)
        ∧ (listMin (alphaPlane img) = listMax (alphaPlane img) →
            listMin (alphaPlane img) ≠ 0 →
            alpha_status img = AlphaStatus.fullyOpaque)
        ∧ (listMin (alphaPlane img) ≠ listMax (alphaPlane img) →
            alpha_status img = AlphaStatus.varying)) := by
  constructor
  · intro h planes2
    simp [alpha_status, h]
  · intro h _hne
    refine ⟨fun he hz => ?_, fun he hz => ?_, fun hne2 => ?_⟩
    · have hmax : listMax (alphaPlane img) = 0 := he ▸ hz
      simp [alpha_status, h, beq_iff_eq, he, hmax]
    · have hmax : listMax (alphaPlane img) ≠ 0 := he ▸ hz
      simp [alpha_status, h, beq_iff_eq, he, hmax]
    · simp [alpha_status, h, beq_iff_eq, hne2]

/-- Witness for C8: one synthetic alpha plane per classification case,
plus an alpha-free image whose status is "no alpha". -/
theorem alpha_state_classification_witness :
    alpha_status ⟨"RGB", [[9], [9], [9]]⟩ = AlphaStatus.noAlpha
    ∧ alpha_status ⟨"RGBA", [[1], [2], [3], [0, 0]]⟩ = AlphaStatus.fullyTransparent
    ∧ alpha_status ⟨"RGBA", [[1], [2], [3], [5, 5]]⟩ = AlphaStatus.fullyOpaque
    ∧ alpha_status ⟨"RGBA", [[1], [2], [3], [0, 5]]⟩ = AlphaStatus.varying :=
  ⟨(alpha_state_classification ⟨"RGB", []⟩).1 (by decide) [[9], [9], [9]],
   ((alpha_state_classification ⟨"RGBA", [[1], [2], [3], [0, 0]]⟩).2 (by decide)
      (by decide)).1 (by decide) (by decide),
   ((alpha_state_classification ⟨"RGBA", [[1], [2], [3], [5, 5]]⟩).2 (by decide)
      (by decide)).2.1 (by decide) (by decide),
   ((alpha_state_classification ⟨"RGBA", [[1], [2], [3], [0, 5]]⟩).2 (by decide)
      (by decide)).2.2 (by decide)⟩

theorem attempt_count_core_map (l : List Event) (n : String) :
    (l.map FolderEvent.core).count (FolderEvent.attempt n) = 0 :=
  List.count_eq_zero.mpr (by simp)

/-- C9: a failure on one file (grayscale rejection, decode failure, or an
I/O error on the copy) never aborts the loop: the trace of a listing is
the per-file trace followed by the trace of the remaining files, every
failing file gets a printed diagnostic, and each file is attempted at
most once (exactly once when its extension is recognized and the copy
succeeds, never retried). -/
theorem folder_failures_do_not_abort (folder : String) (f : FileEntry)
    (fs : List FileEntry) :
    process_folder folder (f :: fs) =
        process_file folder f ++ process_folder folder fs
    ∧ attemptCount (process_file folder f) f.name =
        (if validExt f.name && !f.copyFails then 1 else 0)
    ∧ (validExt f.name = true → entryFails f = true →
        ∃ e ∈ process_file folder f, isErrorPrint e = true) := by
  refine ⟨by simp [process_folder], ?_, ?_⟩
  · by_cases hv : validExt f.name
    · by_cases hc : f.copyFails
      · simp [process_file, attemptCount, hv, hc, List.count_cons]
      · cases hd : f.decode with
        | failure =>
            simp [process_file, attemptCount, hv, hc, hd, List.count_cons]
        | ok img =>
            simp [process_file, attemptCount, hv, hc, hd, List.count_cons,
              List.count_append, attempt_count_core_map]
            cases hout : (process_and_separate_image img (folder ++ "/" ++ f.name)
                (subfolderOf folder f.name)).2 <;> simp [List.count_cons]
    · simp [process_file, attemptCount, hv]
  · intro hv hf
    by_cases hc : f.copyFails
    · exact ⟨FolderEvent.copyError f.name, by simp [process_file, hv, hc], rfl⟩
    · cases hd : f.decode with
      | failure =>
          exact ⟨FolderEvent.errorPrint f.name, by simp [process_file, hv, hc, hd], rfl⟩
      | ok img =>
          have hgray : img.mode ∈ grayscaleModes := by
            unfold entryFails at hf
            rw [hd] at hf
            simpa [hc] using hf
          refine ⟨FolderEvent.errorPrint f.name, ?_, rfl⟩
          have hc' : f.copyFails = false := by simpa using hc
          simp [process_file, hv, hc', hd,
            process_gray_eq img (folder ++ "/" ++ f.name) (subfolderOf folder f.name)
              hgray]

/-- Witness for C9: a grayscale file in a folder listing yields a printed
diagnostic in its own per-file trace. -/
theorem folder_failures_do_not_abort_witness :
    ∃ e ∈ process_file "/f" ⟨"img.png", false, DecodeOutcome.ok imgL⟩,
      isErrorPrint e = true :=
  (folder_failures_do_not_abort "/f" ⟨"img.png", false, DecodeOutcome.ok imgL⟩ []).2.2
    (by decide) (by decide)

/-- C10: a grayscale-rejected call still creates the output directory
first (idempotently: an already-existing directory is left as is), and
the net file-system effect of the whole call is exactly that directory
insertion — the file set is untouched — while the call fails with the
grayscale error. -/
theorem gray_rejection_fs_effect (img : Img) (p o : String) (fs : FS)
    (h : img.mode ∈ grayscaleModes) :
    (process_and_separate_image img p o).1.head? = some (Event.mkdirOut o)
    ∧ applyFS fs (process_and_separate_image img p o).1 =
        { dirs := if o ∈ fs.dirs then fs.dirs else fs.dirs ++ [o],
          files := fs.files }
    ∧ (process_and_separate_image img p o).2 =
        Outcome.grayscaleError (basename p) img.mode := by
  rw [process_gray_eq img p o h]
  refine ⟨rfl, ?_, rfl⟩
  unfold preEvents applyFS
  by_cases hb : bit_depth_warning img.mode <;> by_cases ha : alpha_warning img <;>
    simp [hb, ha, applyEvent]

/-- Witness for C10: rejecting the grayscale `imgL` against a state where
the output directory already exists and one unrelated file is present
changes nothing on disk. -/
theorem gray_rejection_fs_effect_witness :
    applyFS ⟨["o"], ["keep.txt"]⟩
        (process_and_separate_image imgL "a/img.png" "o").1 =
      ⟨["o"], ["keep.txt"]⟩ :=
  ((gray_rejection_fs_effect imgL "a/img.png" "o" ⟨["o"], ["keep.txt"]⟩
      (by decide)).2.1).trans (by decide)

end SepRGB
